import Mathlib

/-!
kube-phpipam: the reconciliation handlers of `src/main.go`.

A shallow embedding of the two event handlers of `main` (`AddFunc`, `DeleteFunc`) and of the
helpers `getSubnet`, `createIP`, `getIP`, `setHostname`.

* The two package-level maps `subnetCache` and `ipCache` are fields of an explicit `State`.
* The phpIPAM registry behind `phpipam.Client` is an arbitrary reactive system: a `Client W`
  answers every request from a world `W` and returns the next world.  Every request that is
  issued is appended to `State.calls`.
* The Go standard library functions the handlers call are parameters: `regexp.Compile` and
  `Regexp.MatchString` are the fields of a `RegexpLib`, `net.ParseCIDR`, `net.ParseIP` and
  `IPNet.Contains` those of a `NetLib`.
* A Go runtime panic (index out of range) is the result `none`.
* Logging has no effect on control flow or state and is left out.
-/

namespace KubePhpipam

/-! ## Data model: `src/phpipam/client.go`, `src/config.go` -/

/-- The part of `phpipam.Subnet` the handlers read: the record identifier. -/
structure Subnet where
  ID : String
deriving DecidableEq, Repr

/-- The part of `phpipam.IPAddress` the handlers read. `Hostname` is a `*string`. -/
structure IPAddress where
  ID : String
  IP : String
  Hostname : Option String
  SubnetID : String
deriving DecidableEq, Repr

/-- Decoded `phpipam.SubnetsResponse`. -/
structure SubnetsResponse where
  Code : Int
  Message : String
  Data : List Subnet
deriving DecidableEq, Repr

/-- Decoded `phpipam.IPAddressResponse`. -/
structure IPAddressResponse where
  Code : Int
  Message : String
  Data : List IPAddress
deriving DecidableEq, Repr

/-- Decoded `phpipam.IPAddressPatchResponse`. -/
structure IPAddressPatchResponse where
  Code : Int
  Message : String
deriving DecidableEq, Repr

/-- Decoded `phpipam.IPAddressDeleteResponse`. -/
structure IPAddressDeleteResponse where
  Code : Int
  Message : String
deriving DecidableEq, Repr

/-- One element of `Config.Subnets`; the three filters are pointers (`nil` is `none`). -/
structure SubnetRule where
  CIDR : String
  Namespace : Option String
  Type_ : Option String
  Regex : Option String
deriving DecidableEq, Repr

/-- The fields of `corev1.ServiceSpec` that `AddFunc` reads. -/
structure ServiceSpec where
  Type_ : String
  LoadBalancerIP : String
  ClusterIP : String
  ExternalIPs : List String
deriving DecidableEq, Repr

/-- The fields of `corev1.Service` that `AddFunc` reads. -/
structure Service where
  Namespace : String
  Name : String
  Annotations : List (String × String)
  Spec : ServiceSpec
deriving DecidableEq, Repr

/-! ## Go maps with string keys

A map is an association list with at most one entry per key.  Go leaves the iteration order of
`range` unspecified; the order of the list is the order one run of `range` takes. -/

/-- Map read `m[k]` with the comma-ok form: `none` when the key is absent. -/
def mapGet {α : Type} (m : List (String × α)) (k : String) : Option α :=
  List.lookup k m

/-- Builtin `delete(m, k)`. -/
def mapDelete {α : Type} (m : List (String × α)) (k : String) : List (String × α) :=
  m.filter (fun e => e.1 != k)

/-- Map write `m[k] = v`. -/
def mapSet {α : Type} (m : List (String × α)) (k : String) (v : α) : List (String × α) :=
  (k, v) :: mapDelete m k

/-! ## The environment: Go standard library and the registry client -/

/-- The functions of package `regexp` used by `AddFunc`; a compile error is `none`. -/
structure RegexpLib where
  Regexp : Type
  Compile : String → Option Regexp
  MatchString : Regexp → String → Bool

/-- The functions of package `net` used by `AddFunc`; an error or a `nil` address is `none`. -/
structure NetLib where
  IP : Type
  IPNet : Type
  ParseCIDR : String → Option IPNet
  ParseIP : String → Option IP
  Contains : IPNet → IP → Bool

/-- The call `ipnet.Contains(net.ParseIP(ip))`: `Contains` answers false on the nil address. -/
def containsParsed (N : NetLib) (ipnet : N.IPNet) (ip : String) : Bool :=
  match N.ParseIP ip with
  | none => false
  | some a => N.Contains ipnet a

/-- A request sent to the registry. -/
inductive Call where
  | GET (path : String)
  | POST (path : String) (body : List (String × String))
  | PATCH (path : String) (body : List (String × String))
  | DELETE (path : String)
deriving DecidableEq, Repr

/-- The methods of `phpipam.Client` as the handlers use them, one `GET` per decoded output type.
`DELETE` returns the error together with the content of the output variable, which the caller
reads whether or not an error was returned. -/
structure Client (W : Type) where
  GETsubnets : String → W → Except String SubnetsResponse × W
  GETaddresses : String → W → Except String IPAddressResponse × W
  POST : String → List (String × String) → W → Except String IPAddressPatchResponse × W
  PATCH : String → List (String × String) → W → Except String IPAddressPatchResponse × W
  DELETE : String → W → (Option String × IPAddressDeleteResponse) × W

/-- The mutable state: the two caches of `main.go`, the registry, and the requests issued. -/
structure State (W : Type) where
  subnetCache : List (String × Subnet)
  ipCache : List (String × String)
  world : W
  calls : List Call
deriving DecidableEq

/-- Records one request and the registry's next world. -/
def State.issue {W : Type} (st : State W) (c : Call) (w : W) : State W :=
  { st with world := w, calls := st.calls ++ [c] }

/-! ## The helpers of `src/main.go` -/

/-- Source function `getSubnet` (main.go 45-61). -/
def getSubnet {W : Type} (client : Client W) (cidr : String) (st : State W) :
    Except String Subnet × State W :=
  match mapGet st.subnetCache cidr with
  | some x => (.ok x, st)
  | none =>
    let path := "subnets/cidr/" ++ cidr
    let r := client.GETsubnets path st.world
    let st1 := st.issue (Call.GET path) r.2
    match r.1 with
    | .error err => (.error err, st1)
    | .ok subnets =>
      if subnets.Data.length = 0 then
        (.error ("no subnet found matching CIDR " ++ cidr), st1)
      else if subnets.Data.length > 1 then
        (.error ("multiple subnet found matching CIDR " ++ cidr), st1)
      else
        match subnets.Data with
        | d :: _ => (.ok d, { st1 with subnetCache := mapSet st1.subnetCache cidr d })
        | [] => (.error "index out of range", st1)

/-- Source function `createIP` (main.go 63-79). -/
def createIP {W : Type} (client : Client W) (subnet ip hostname : String) (st : State W) :
    Except String Unit × State W :=
  let url := "addresses/"
  let body := [("ip", ip), ("hostname", hostname), ("subnetId", subnet),
    ("note", "Added by kube-phpipam")]
  let r := client.POST url body st.world
  let st1 := st.issue (Call.POST url body) r.2
  match r.1 with
  | .error err => (.error ("error adding IP address " ++ ip ++ ": " ++ err), st1)
  | .ok out =>
    if out.Code < 200 || out.Code > 299 then
      (.error ("Error from phpIPAM adding IP address " ++ ip ++ ": " ++ out.Message), st1)
    else
      (.ok (), { st1 with ipCache := mapSet st1.ipCache ip hostname })

/-- Source function `getIP` (main.go 81-96). -/
def getIP {W : Type} (client : Client W) (ip : String) (st : State W) :
    Except String (Option IPAddress) × State W :=
  let path := "addresses/search/" ++ ip ++ "/"
  let r := client.GETaddresses path st.world
  let st1 := st.issue (Call.GET path) r.2
  match r.1 with
  | .error err => (.error err, st1)
  | .ok res =>
    if res.Code ≠ 200 then
      (.error res.Message, st1)
    else if res.Data.length = 0 then
      (.ok none, st1)
    else if res.Data.length > 1 then
      (.error ("multiple IPs found matching " ++ ip), st1)
    else
      match res.Data with
      | d :: _ => (.ok (some d), st1)
      | [] => (.error "index out of range", st1)

/-- Source function `setHostname` (main.go 98-112). -/
def setHostname {W : Type} (client : Client W) (id ip hostname : String) (st : State W) :
    Except String Unit × State W :=
  let url := "addresses/" ++ id ++ "/"
  let body := [("hostname", hostname), ("note", "Added by kube-phpipam")]
  let r := client.PATCH url body st.world
  let st1 := st.issue (Call.PATCH url body) r.2
  match r.1 with
  | .error err => (.error err, st1)
  | .ok out =>
    if out.Code < 200 || out.Code > 299 then
      (.error out.Message, st1)
    else
      (.ok (), { st1 with ipCache := mapSet st1.ipCache ip hostname })

/-! ## `AddFunc` (main.go 165-268) -/

/-- The owner string `hostname` computed at main.go 168-172. -/
def ownerHostname (svc : Service) : String :=
  match mapGet svc.Annotations "metallb.universe.tf/allow-shared-ip" with
  | some l => svc.Namespace ++ "/" ++ l
  | none => svc.Namespace ++ "/" ++ svc.Name

/-- The closure `appendip` (main.go 209-213), with the slice `ips` passed explicitly. -/
def appendip (N : NetLib) (ipnet : N.IPNet) (ips : List String) (ip : String) : List String :=
  if ip != "" && containsParsed N ipnet ip then ips ++ [ip] else ips

/-- The slice `ips` after main.go 208-218. -/
def extractIPs (N : NetLib) (ipnet : N.IPNet) (svc : Service) : List String :=
  svc.Spec.ExternalIPs.foldl (appendip N ipnet)
    (appendip N ipnet (appendip N ipnet [] svc.Spec.LoadBalancerIP) svc.Spec.ClusterIP)

/-- The search loop over `res.Data` that sets `found` (main.go 245-254). -/
def foundLoop (ip hostname : String) : List IPAddress → Bool
  | [] => false
  | foundIP :: rest =>
    match foundIP.Hostname with
    | none => foundLoop ip hostname rest
    | some h => if foundIP.IP = ip ∧ h = hostname then true else foundLoop ip hostname rest

/-- The body of the loop over `ips` (main.go 226-264) for one address. -/
def syncIP {W : Type} (client : Client W) (subnetID ip hostname : String) (st : State W) :
    Option (State W) :=
  let url := "addresses/search/" ++ ip ++ "/"
  let r := client.GETaddresses url st.world
  let st1 := st.issue (Call.GET url) r.2
  match r.1 with
  | .error _ => some st1
  | .ok res =>
    if res.Code ≠ 200 then
      some (createIP client subnetID ip hostname st1).2
    else if foundLoop ip hostname res.Data then
      some { st1 with ipCache := mapSet st1.ipCache ip hostname }
    else
      match res.Data with
      | [] => none
      | d :: _ => some (setHostname client d.ID ip hostname st1).2

/-- The loop `for _, ip := range ips` (main.go 225-265). -/
def syncIPs {W : Type} (client : Client W) (subnetID hostname : String) :
    List String → State W → Option (State W)
  | [], st => some st
  | ip :: rest, st =>
    match syncIP client subnetID ip hostname st with
    | none => none
    | some st1 => syncIPs client subnetID hostname rest st1

/-- The part of the loop body after the three filters (main.go 195-265). -/
def applyRule {W : Type} (N : NetLib) (client : Client W) (svc : Service) (hostname : String)
    (subnet : SubnetRule) (st : State W) : Option (State W) :=
  match N.ParseCIDR subnet.CIDR with
  | none => some st
  | some ipnet =>
    match getSubnet client subnet.CIDR st with
    | (.error _, st1) => some st1
    | (.ok ipamSubnet, st1) =>
      syncIPs client ipamSubnet.ID hostname (extractIPs N ipnet svc) st1

/-- The body of the loop over `config.Subnets` (main.go 175-265) for one rule. -/
def subnetStep {W : Type} (R : RegexpLib) (N : NetLib) (client : Client W) (svc : Service) (hostname : String)
    (subnet : SubnetRule) (st : State W) : Option (State W) :=
  if (match subnet.Namespace with
      | some ns => svc.Namespace != ns
      | none => false) then some st
  else if (match subnet.Type_ with
      | some t => svc.Spec.Type_ != t
      | none => false) then some st
  else
    match subnet.Regex with
    | none => applyRule N client svc hostname subnet st
    | some regex =>
      match R.Compile regex with
      | none => some st
      | some re =>
        if !R.MatchString re svc.Name then some st
        else applyRule N client svc hostname subnet st

/-- The loop `for _, subnet := range config.Subnets` (main.go 174-266). -/
def subnetLoop {W : Type} (R : RegexpLib) (N : NetLib) (client : Client W) (svc : Service) (hostname : String) :
    List SubnetRule → State W → Option (State W)
  | [], st => some st
  | subnet :: rest, st =>
    match subnetStep R N client svc hostname subnet st with
    | none => none
    | some st1 => subnetLoop R N client svc hostname rest st1

/-- The handler `AddFunc` (main.go 165-268). -/
def AddFunc {W : Type} (R : RegexpLib) (N : NetLib) (client : Client W) (config : List SubnetRule) (svc : Service)
    (st : State W) : Option (State W) :=
  subnetLoop R N client svc (ownerHostname svc) config st

/-! ## `DeleteFunc` (main.go 269-299) -/

/-- The loop `for ip, name := range ipCache` (main.go 271-297) over the entries of the map. -/
def deleteLoop {W : Type} (client : Client W) (s : String) :
    List (String × String) → State W → State W
  | [], st => st
  | (ip, name) :: rest, st =>
    if name != s then deleteLoop client s rest st
    else
      match getIP client ip st with
      | (.error _, st1) => deleteLoop client s rest st1
      | (.ok none, st1) => deleteLoop client s rest st1
      | (.ok (some ipamip), st1) =>
        let path := "addresses/" ++ ipamip.ID ++ "/"
        let r := client.DELETE path st1.world
        let st2 := st1.issue (Call.DELETE path) r.2
        { st2 with ipCache := mapDelete st2.ipCache ip }

/-- The handler `DeleteFunc` (main.go 269-299). -/
def DeleteFunc {W : Type} (client : Client W) (s : String) (st : State W) : State W :=
  deleteLoop client s st.ipCache st

/-! ## A concrete `NetLib`: dotted-decimal IPv4

The IPv4 part of package `net`: an address is its 32-bit number, a network is its masked network
number with its mask.  Strings that `net.ParseIP` would read as IPv6 are outside this fragment
and do not parse here. -/

/-- Fields of a string between occurrences of `sep`. -/
def splitFields (sep : Char) : List Char → List (List Char)
  | [] => [[]]
  | c :: cs =>
    if c = sep then [] :: splitFields sep cs
    else
      match splitFields sep cs with
      | [] => [[c]]
      | f :: fs => (c :: f) :: fs

/-- Value of a string of decimal digits read left to right from `acc`; `none` on a non-digit. -/
def digitsFrom (acc : Nat) : List Char → Option Nat
  | [] => some acc
  | c :: cs =>
    if 48 ≤ c.toNat ∧ c.toNat ≤ 57 then digitsFrom (acc * 10 + (c.toNat - 48)) cs else none

/-- A non-empty string of decimal digits. -/
def decimal (cs : List Char) : Option Nat :=
  match cs with
  | [] => none
  | _ :: _ => digitsFrom 0 cs

/-- One component of a dotted-decimal address: at most 255, no leading zero. -/
def parseOctet (cs : List Char) : Option Nat :=
  match decimal cs with
  | none => none
  | some n =>
    if n > 255 then none
    else if cs.length > 1 ∧ cs.head? = some '0' then none
    else some n

/-- Dotted-decimal IPv4 address as a 32-bit number. -/
def parseIPv4 (s : String) : Option Nat :=
  match (splitFields '.' s.data).map parseOctet with
  | [some a, some b, some c, some d] => some (a * 16777216 + b * 65536 + c * 256 + d)
  | _ => none

/-- CIDR string `a.b.c.d/n`: the pair of the masked network number and the mask. -/
def parseCIDR4 (s : String) : Option (Nat × Nat) :=
  match splitFields '/' s.data with
  | [addr, mask] =>
    match parseIPv4 (String.mk addr), decimal mask with
    | some ip, some n =>
      if n > 32 then none
      else
        let m := 4294967296 - 2 ^ (32 - n)
        some (ip &&& m, m)
    | _, _ => none
  | _ => none

/-- IPv4 instance of `NetLib`. -/
def ipv4Net : NetLib where
  IP := Nat
  IPNet := Nat × Nat
  ParseCIDR := parseCIDR4
  ParseIP := parseIPv4
  Contains := fun n ip => ip &&& n.2 == n.1

/-! ## Specification-side definitions -/

/-- The three predicates of the Policy Matcher for one rule, as the specification words them:
each filter is absent or satisfied by the service; the name filter is satisfied when the
expression compiles and matches the service name. -/
def RuleHolds (R : RegexpLib) (svc : Service) (rule : SubnetRule) : Prop :=
  (rule.Namespace = none ∨ rule.Namespace = some svc.Namespace) ∧
  (rule.Type_ = none ∨ rule.Type_ = some svc.Spec.Type_) ∧
  (rule.Regex = none ∨
    ∃ regex re, rule.Regex = some regex ∧ R.Compile regex = some re ∧
      R.MatchString re svc.Name = true)

/-- The name predicate of `RuleHolds` as a computation. -/
def regexHolds (R : RegexpLib) (name : String) : Option String → Bool
  | none => true
  | some regex =>
    match R.Compile regex with
    | none => false
    | some re => R.MatchString re name

instance RuleHolds.decidable (R : RegexpLib) (svc : Service) (rule : SubnetRule) :
    Decidable (RuleHolds R svc rule) :=
  decidable_of_iff
    ((rule.Namespace = none ∨ rule.Namespace = some svc.Namespace) ∧
      (rule.Type_ = none ∨ rule.Type_ = some svc.Spec.Type_) ∧
      regexHolds R svc.Name rule.Regex = true)
    (by
      unfold RuleHolds
      cases hr : rule.Regex with
      | none => simp [regexHolds]
      | some regex => cases hc : R.Compile regex <;> simp [regexHolds, hc])

/-- The rules of a list applied one after the other, none of them filtered. -/
def applyRules {W : Type} (N : NetLib) (client : Client W) (svc : Service) (hostname : String) :
    List SubnetRule → State W → Option (State W)
  | [], st => some st
  | rule :: rest, st =>
    match applyRule N client svc hostname rule st with
    | none => none
    | some st1 => applyRules N client svc hostname rest st1

/-- The candidate addresses of a service in the order `AddFunc` offers them to `appendip`:
load-balancer address, cluster-internal address, externally-advertised addresses. -/
def candidates (svc : Service) : List String :=
  svc.Spec.LoadBalancerIP :: svc.Spec.ClusterIP :: svc.Spec.ExternalIPs

/-- An event delivered by the controller (`controller.New` with `ConcurrentWorkers: 1`):
a service was added or re-synchronised, or the service with key `s` was deleted. -/
inductive Event where
  | added (svc : Service)
  | deleted (s : String)

/-- The handler the controller invokes for one event. -/
def handleEvent {W : Type} (R : RegexpLib) (N : NetLib) (client : Client W)
    (config : List SubnetRule) : Event → State W → Option (State W)
  | .added svc, st => AddFunc R N client config svc st
  | .deleted s, st => some (DeleteFunc client s st)

/-- Events handled one at a time, each to completion before the next. -/
def runEvents {W : Type} (R : RegexpLib) (N : NetLib) (client : Client W)
    (config : List SubnetRule) : List Event → State W → Option (State W)
  | [], st => some st
  | e :: rest, st =>
    match handleEvent R N client config e st with
    | none => none
    | some st1 => runEvents R N client config rest st1

/-! ## An in-memory registry, to run the handlers on concrete inputs -/

/-- Content of a small registry: subnets by CIDR, address records, and whether it refuses
deletions. -/
structure Registry where
  subnets : List (String × Subnet)
  addresses : List IPAddress
  refuseDelete : Bool
deriving DecidableEq, Repr

/-- The registry as a client: a search answers 404 when no record has the address and 200 with
the records otherwise; a create appends a record and answers 201; an update sets the hostname of
the record addressed and answers 200; a delete removes the record and answers 200, or answers
500 and removes nothing when the registry refuses deletions. -/
def memClient : Client Registry where
  GETsubnets := fun path w =>
    let found := w.subnets.filter (fun e => "subnets/cidr/" ++ e.1 == path)
    (.ok { Code := 200, Message := "", Data := found.map (fun e => e.2) }, w)
  GETaddresses := fun path w =>
    match w.addresses.filter (fun a => "addresses/search/" ++ a.IP ++ "/" == path) with
    | [] => (.ok { Code := 404, Message := "Address not found", Data := [] }, w)
    | r :: rs => (.ok { Code := 200, Message := "", Data := r :: rs }, w)
  POST := fun _ body w =>
    match List.lookup "ip" body with
    | none => (.ok { Code := 400, Message := "Invalid address" }, w)
    | some ip =>
      let created : IPAddress :=
        { ID := "id-" ++ ip, IP := ip, Hostname := List.lookup "hostname" body,
          SubnetID := (List.lookup "subnetId" body).getD "" }
      (.ok { Code := 201, Message := "Address created" },
        { w with addresses := w.addresses ++ [created] })
  PATCH := fun path body w =>
    let update : IPAddress → IPAddress := fun a =>
      if "addresses/" ++ a.ID ++ "/" == path then
        { a with Hostname := List.lookup "hostname" body }
      else a
    (.ok { Code := 200, Message := "Address updated" },
      { w with addresses := w.addresses.map update })
  DELETE := fun path w =>
    if w.refuseDelete then
      ((none, { Code := 500, Message := "Address cannot be deleted" }), w)
    else
      let kept := w.addresses.filter (fun a => "addresses/" ++ a.ID ++ "/" != path)
      ((none, { Code := 200, Message := "Address deleted" }), { w with addresses := kept })

/-- The in-memory registry behind a server that answers every search with code 200 and the
matching records, an empty list when no record has the address. -/
def memClient200 : Client Registry :=
  { memClient with
    GETaddresses := fun path w =>
      let found := w.addresses.filter (fun a => "addresses/search/" ++ a.IP ++ "/" == path)
      (.ok { Code := 200, Message := "", Data := found }, w) }

/-- A registry holding subnet 10.0.0.0/24 under identifier 7 and the given address records. -/
def registryWith (addresses : List IPAddress) (refuseDelete : Bool) : Registry :=
  { subnets := [("10.0.0.0/24", { ID := "7" })], addresses := addresses,
    refuseDelete := refuseDelete }

/-- The state of a process with an empty subnet cache, the given ownership cache, no request
issued yet, in front of the given registry. -/
def startState (ipCache : List (String × String)) (w : Registry) : State Registry :=
  { subnetCache := [], ipCache := ipCache, world := w, calls := [] }

/-- The record the in-memory registry creates for 10.0.0.5, subnet 7, owner default/web. -/
def createdRecord : IPAddress :=
  { ID := "id-10.0.0.5", IP := "10.0.0.5", Hostname := some "default/web", SubnetID := "7" }

/-- A record that reserves 10.0.0.5 for default/old. -/
def oldRecord : IPAddress :=
  { ID := "1", IP := "10.0.0.5", Hostname := some "default/old", SubnetID := "7" }

/-- A second record that reserves 10.0.0.5, for default/other. -/
def otherRecord : IPAddress :=
  { ID := "2", IP := "10.0.0.5", Hostname := some "default/other", SubnetID := "7" }

/-- The reservation of 10.0.0.5 for default/web. -/
def webRecord5 : IPAddress :=
  { ID := "1", IP := "10.0.0.5", Hostname := some "default/web", SubnetID := "7" }

/-- The reservation of 10.0.0.6 for default/web. -/
def webRecord6 : IPAddress :=
  { ID := "2", IP := "10.0.0.6", Hostname := some "default/web", SubnetID := "7" }

/-- A service whose load-balancer address is also one of its externally-advertised addresses. -/
def dupService : Service :=
  { Namespace := "default", Name := "web", Annotations := [],
    Spec := { Type_ := "LoadBalancer", LoadBalancerIP := "10.0.0.5",
              ClusterIP := "10.96.0.10", ExternalIPs := ["10.0.0.5"] } }

end KubePhpipam

namespace KubePhpipam

/-! ## Maps -/

theorem mapGet_mapDelete_self {α : Type} (m : List (String × α)) (k : String) :
    mapGet (mapDelete m k) k = none := by
  induction m with
  | nil => rfl
  | cons e es ih =>
    obtain ⟨a, b⟩ := e
    unfold mapDelete at ih ⊢
    unfold mapGet at ih ⊢
    by_cases h : a = k
    · simp [List.filter_cons, h, ih]
    · have hk : (k == a) = false := by simpa using fun e => h e.symm
      simp [List.filter_cons, h, List.lookup_cons, hk, ih]

theorem mapGet_mapDelete_ne {α : Type} (m : List (String × α)) (k k' : String) (h : k' ≠ k) :
    mapGet (mapDelete m k) k' = mapGet m k' := by
  induction m with
  | nil => rfl
  | cons e es ih =>
    obtain ⟨a, b⟩ := e
    unfold mapDelete at ih ⊢
    unfold mapGet at ih ⊢
    by_cases ha : a = k
    · have hk : (k' == a) = false := by simpa [ha] using h
      simp [List.filter_cons, ha, List.lookup_cons, ih]
      rw [← ha, hk]
    · by_cases hk : (k' == a) = true
      · simp [List.filter_cons, ha, List.lookup_cons, hk]
      · simp [List.filter_cons, ha, List.lookup_cons, hk, ih]

theorem mapGet_mapSet_self {α : Type} (m : List (String × α)) (k : String) (v : α) :
    mapGet (mapSet m k v) k = some v := by
  simp [mapGet, mapSet, List.lookup_cons]

theorem mapGet_mapSet_ne {α : Type} (m : List (String × α)) (k k' : String) (v : α)
    (h : k' ≠ k) : mapGet (mapSet m k v) k' = mapGet m k' := by
  have hk : (k' == k) = false := by simpa using h
  have := mapGet_mapDelete_ne m k k' h
  unfold mapGet at this ⊢
  simp [mapSet, List.lookup_cons, hk, this]

/-! ## Policy Matcher -/

theorem subnetStep_of_holds {W : Type} (R : RegexpLib) (N : NetLib) (client : Client W)
    (svc : Service) (hostname : String) (rule : SubnetRule) (st : State W)
    (h : RuleHolds R svc rule) :
    subnetStep R N client svc hostname rule st = applyRule N client svc hostname rule st := by
  obtain ⟨hn, ht, hr⟩ := h
  unfold subnetStep
  have h1 : (match rule.Namespace with
      | some ns => svc.Namespace != ns
      | none => false) = false := by
    rcases hn with hn | hn <;> simp [hn]
  have h2 : (match rule.Type_ with
      | some t => svc.Spec.Type_ != t
      | none => false) = false := by
    rcases ht with ht | ht <;> simp [ht]
  simp only [h1, h2]
  rcases hr with hr | ⟨regex, re, hr, hc, hm⟩
  · simp [hr]
  · simp [hr, hc, hm]

theorem subnetStep_of_not_holds {W : Type} (R : RegexpLib) (N : NetLib) (client : Client W)
    (svc : Service) (hostname : String) (rule : SubnetRule) (st : State W)
    (h : ¬ RuleHolds R svc rule) :
    subnetStep R N client svc hostname rule st = some st := by
  unfold subnetStep
  rcases hns : rule.Namespace with _ | ns
  · rcases hty : rule.Type_ with _ | t
    · rcases hre : rule.Regex with _ | regex
      · exact absurd ⟨Or.inl hns, Or.inl hty, Or.inl hre⟩ h
      · rcases hc : R.Compile regex with _ | re
        · simp [hc]
        · by_cases hm : R.MatchString re svc.Name = true
          · exact absurd ⟨Or.inl hns, Or.inl hty, Or.inr ⟨regex, re, hre, hc, hm⟩⟩ h
          · simp [hc, hm]
    · by_cases ht : svc.Spec.Type_ = t
      · subst ht
        rcases hre : rule.Regex with _ | regex
        · exact absurd ⟨Or.inl hns, Or.inr hty, Or.inl hre⟩ h
        · rcases hc : R.Compile regex with _ | re
          · simp [hc]
          · by_cases hm : R.MatchString re svc.Name = true
            · exact absurd ⟨Or.inl hns, Or.inr hty, Or.inr ⟨regex, re, hre, hc, hm⟩⟩ h
            · simp [hc, hm]
      · simp [ht]
  · by_cases hn : svc.Namespace = ns
    · subst hn
      rcases hty : rule.Type_ with _ | t
      · rcases hre : rule.Regex with _ | regex
        · exact absurd ⟨Or.inr hns, Or.inl hty, Or.inl hre⟩ h
        · rcases hc : R.Compile regex with _ | re
          · simp [hc]
          · by_cases hm : R.MatchString re svc.Name = true
            · exact absurd ⟨Or.inr hns, Or.inl hty, Or.inr ⟨regex, re, hre, hc, hm⟩⟩ h
            · simp [hc, hm]
      · by_cases ht : svc.Spec.Type_ = t
        · subst ht
          rcases hre : rule.Regex with _ | regex
          · exact absurd ⟨Or.inr hns, Or.inr hty, Or.inl hre⟩ h
          · rcases hc : R.Compile regex with _ | re
            · simp [hc]
            · by_cases hm : R.MatchString re svc.Name = true
              · exact absurd ⟨Or.inr hns, Or.inr hty, Or.inr ⟨regex, re, hre, hc, hm⟩⟩ h
              · simp [hc, hm]
        · simp [ht]
    · simp [hn]

theorem subnetLoop_eq_applyRules_filter {W : Type} (R : RegexpLib) (N : NetLib)
    (client : Client W) (svc : Service) (hostname : String) (config : List SubnetRule) :
    ∀ st : State W, subnetLoop R N client svc hostname config st =
      applyRules N client svc hostname
        (config.filter (fun rule => decide (RuleHolds R svc rule))) st := by
  induction config with
  | nil => intro st; rfl
  | cons rule rest ih =>
    intro st
    by_cases h : RuleHolds R svc rule
    · rw [List.filter_cons_of_pos (by simpa using h)]
      simp only [subnetLoop, applyRules, subnetStep_of_holds R N client svc hostname rule st h]
      cases applyRule N client svc hostname rule st with
      | none => rfl
      | some st1 => exact ih st1
    · rw [List.filter_cons_of_neg (by simpa using h)]
      simp only [subnetLoop, subnetStep_of_not_holds R N client svc hostname rule st h]
      exact ih st

/-- C1. Policy Matcher of `AddFunc`: a rule whose predicates do not all hold (namespace filter
absent or equal to the service namespace, kind filter absent or equal to the service type, name
expression absent or compiling and matching the service name) leaves the state untouched and
issues no request; a rule whose predicates hold is applied; a rule whose expression does not
compile is skipped; the handler is the application, in declaration order, of exactly the rules
of the configuration that pass the test taken one by one; a rule with namespace filter "prod" is
never applied to a service of namespace "dev". -/
theorem C1_policy_matcher {W : Type} (R : RegexpLib) (N : NetLib) (client : Client W)
    (svc : Service) (config : List SubnetRule) (st : State W) :
    (∀ rule (s : State W), ¬ RuleHolds R svc rule →
        subnetStep R N client svc (ownerHostname svc) rule s = some s) ∧
    (∀ rule (s : State W), RuleHolds R svc rule →
        subnetStep R N client svc (ownerHostname svc) rule s =
          applyRule N client svc (ownerHostname svc) rule s) ∧
    (∀ rule regex (s : State W), rule.Regex = some regex → R.Compile regex = none →
        subnetStep R N client svc (ownerHostname svc) rule s = some s) ∧
    AddFunc R N client config svc st =
      applyRules N client svc (ownerHostname svc)
        (config.filter (fun rule => decide (RuleHolds R svc rule))) st ∧
    (config.filter (fun rule => decide (RuleHolds R svc rule))).Sublist config ∧
    (∀ rule, rule ∈ config.filter (fun rule => decide (RuleHolds R svc rule)) ↔
        rule ∈ config ∧ RuleHolds R svc rule) ∧
    (∀ rule (s : State W), svc.Namespace = "dev" → rule.Namespace = some "prod" →
        ¬ RuleHolds R svc rule ∧
        subnetStep R N client svc (ownerHostname svc) rule s = some s) := by
  refine ⟨fun rule s h => subnetStep_of_not_holds R N client svc _ rule s h,
    fun rule s h => subnetStep_of_holds R N client svc _ rule s h, ?_,
    subnetLoop_eq_applyRules_filter R N client svc _ config st,
    List.filter_sublist _, ?_, ?_⟩
  · intro rule regex s hr hc
    apply subnetStep_of_not_holds
    rintro ⟨_, _, h | ⟨regex2, re, h1, h2, _⟩⟩
    · rw [hr] at h; cases h
    · rw [hr] at h1; cases h1; rw [hc] at h2; cases h2
  · intro rule
    simp [List.mem_filter]
  · intro rule s hd hp
    have hno : ¬ RuleHolds R svc rule := by
      rintro ⟨h | h, _, _⟩
      · rw [hp] at h; cases h
      · rw [hp, hd] at h; revert h; decide
    exact ⟨hno, subnetStep_of_not_holds R N client svc _ rule s hno⟩

/-! ## Address Extractor -/

/-- The test of the closure `appendip`. -/
theorem appendip_eq (N : NetLib) (ipnet : N.IPNet) (ips : List String) (ip : String) :
    appendip N ipnet ips ip =
      ips ++ [ip].filter (fun ip => ip != "" && containsParsed N ipnet ip) := by
  unfold appendip
  by_cases h : (ip != "" && containsParsed N ipnet ip) = true
  · simp [h]
  · simp [h]

theorem foldl_appendip (N : NetLib) (ipnet : N.IPNet) (l : List String) :
    ∀ ips : List String, l.foldl (appendip N ipnet) ips =
      ips ++ l.filter (fun ip => ip != "" && containsParsed N ipnet ip) := by
  induction l with
  | nil => intro ips; simp
  | cons x xs ih =>
    intro ips
    rw [List.foldl_cons, ih, appendip_eq, List.append_assoc, ← List.filter_append]
    rfl

theorem extractIPs_eq_filter (N : NetLib) (ipnet : N.IPNet) (svc : Service) :
    extractIPs N ipnet svc =
      (candidates svc).filter (fun ip => ip != "" && containsParsed N ipnet ip) := by
  unfold extractIPs candidates
  rw [foldl_appendip, appendip_eq, appendip_eq, List.nil_append, List.append_assoc,
    ← List.filter_append, ← List.filter_append]
  rfl

theorem containsParsed_iff (N : NetLib) (ipnet : N.IPNet) (ip : String) :
    containsParsed N ipnet ip = true ↔
      ∃ x, N.ParseIP ip = some x ∧ N.Contains ipnet x = true := by
  unfold containsParsed
  cases N.ParseIP ip <;> simp

theorem mem_extractIPs (N : NetLib) (ipnet : N.IPNet) (svc : Service) (a : String) :
    a ∈ extractIPs N ipnet svc ↔
      a ∈ candidates svc ∧ a ≠ "" ∧
        ∃ x, N.ParseIP a = some x ∧ N.Contains ipnet x = true := by
  rw [extractIPs_eq_filter, List.mem_filter, ← containsParsed_iff]
  simp

/-- C2. Address Extractor of `AddFunc`, for a library whose `ParseIP` rejects the empty string
as Go's does: an address is in the extracted list exactly when it is one of the candidates
(load-balancer address, cluster-internal address, externally-advertised addresses), parses and
lies inside the range; an empty or unparsable candidate is excluded; the list is the candidate
list with the other entries dropped, so it keeps their order.  In the IPv4 library, for range
10.0.0.0/24, candidate 10.0.0.5 is retained and 10.1.0.5, the empty string and an unparsable
string are excluded. -/
theorem C2_address_extractor (N : NetLib) (hempty : N.ParseIP "" = none) (ipnet : N.IPNet)
    (svc : Service) :
    (∀ a, a ∈ extractIPs N ipnet svc ↔
        a ∈ candidates svc ∧ ∃ x, N.ParseIP a = some x ∧ N.Contains ipnet x = true) ∧
    (∀ a, a = "" ∨ N.ParseIP a = none → a ∉ extractIPs N ipnet svc) ∧
    extractIPs N ipnet svc =
      (candidates svc).filter (fun ip => ip != "" && containsParsed N ipnet ip) ∧
    (extractIPs N ipnet svc).Sublist (candidates svc) ∧
    (∃ n, ipv4Net.ParseCIDR "10.0.0.0/24" = some n ∧
      ∀ s : Service,
        ("10.0.0.5" ∈ candidates s → "10.0.0.5" ∈ extractIPs ipv4Net n s) ∧
        "10.1.0.5" ∉ extractIPs ipv4Net n s ∧
        "" ∉ extractIPs ipv4Net n s ∧
        "ten.0.0.5" ∉ extractIPs ipv4Net n s) := by
  refine ⟨?_, ?_, extractIPs_eq_filter N ipnet svc, ?_, ?_⟩
  · intro a
    rw [mem_extractIPs]
    constructor
    · rintro ⟨h1, _, h3⟩; exact ⟨h1, h3⟩
    · rintro ⟨h1, x, hx, hc⟩
      refine ⟨h1, ?_, x, hx, hc⟩
      rintro rfl
      rw [hempty] at hx; cases hx
  · intro a ha
    rw [mem_extractIPs]
    rintro ⟨_, hne, x, hx, _⟩
    rcases ha with ha | ha
    · exact hne ha
    · rw [ha] at hx; cases hx
  · rw [extractIPs_eq_filter]; exact List.filter_sublist _
  · refine ⟨(167772160, 4294967040),
      (by decide : parseCIDR4 "10.0.0.0/24" = some (167772160, 4294967040)), ?_⟩
    intro s
    simp only [extractIPs_eq_filter, List.mem_filter]
    refine ⟨fun h => ⟨h, by decide⟩, ?_, ?_, ?_⟩
    · rintro ⟨_, h⟩; revert h; decide
    · rintro ⟨_, h⟩; revert h; decide
    · rintro ⟨_, h⟩; revert h; decide

/-- Witness of C2 at the IPv4 library, range 10.0.0.0/24 and a service whose candidates are
10.0.0.5, 10.1.0.5 and 10.0.0.7. -/
theorem C2_address_extractor_witness :
    ipv4Net.ParseIP "" = none ∧
    ∀ a, a ∈ extractIPs ipv4Net (167772160, 4294967040)
        { Namespace := "default", Name := "web", Annotations := [],
          Spec := { Type_ := "LoadBalancer", LoadBalancerIP := "10.0.0.5",
                    ClusterIP := "10.1.0.5", ExternalIPs := ["10.0.0.7"] } } ↔
      a ∈ candidates
        { Namespace := "default", Name := "web", Annotations := [],
          Spec := { Type_ := "LoadBalancer", LoadBalancerIP := "10.0.0.5",
                    ClusterIP := "10.1.0.5", ExternalIPs := ["10.0.0.7"] } } ∧
        ∃ x, ipv4Net.ParseIP a = some x ∧
          ipv4Net.Contains (167772160, 4294967040) x = true :=
  ⟨(by decide : parseIPv4 "" = none),
    (C2_address_extractor ipv4Net (by decide : parseIPv4 "" = none)
      (167772160, 4294967040) _).1⟩

/-- C3, counterexample. For range 10.0.0.0/24 and a service whose load-balancer address
10.0.0.5 is also an externally-advertised address, the extracted list holds 10.0.0.5 twice. -/
theorem C3_dedup_counterexample :
    (ipv4Net.ParseCIDR "10.0.0.0/24").map (fun n => extractIPs ipv4Net n dupService) =
      some ["10.0.0.5", "10.0.0.5"] ∧
    ¬ (extractIPs ipv4Net (167772160, 4294967040) dupService).Nodup := by
  constructor
  · show (parseCIDR4 "10.0.0.0/24").map (fun n => extractIPs ipv4Net n dupService) = _
    decide
  · have h : extractIPs ipv4Net (167772160, 4294967040) dupService =
        ["10.0.0.5", "10.0.0.5"] := by decide
    rw [h]
    decide

/-- C3, amended. The extractor does not de-duplicate: an address occurs in the extracted list as
many times as among the candidates when it is non-empty, parses and lies inside the range, and
not at all otherwise; so the list holds no address twice exactly when no such address occurs
twice among the candidates. -/
theorem C3_extractor_multiplicity (N : NetLib) (ipnet : N.IPNet) (svc : Service) :
    (∀ a, (extractIPs N ipnet svc).count a =
        if (a != "" && containsParsed N ipnet a) = true then (candidates svc).count a else 0) ∧
    ((extractIPs N ipnet svc).Nodup ↔
        ∀ a, a ≠ "" → containsParsed N ipnet a = true → (candidates svc).count a ≤ 1) := by
  have hc : ∀ a, (extractIPs N ipnet svc).count a =
      if (a != "" && containsParsed N ipnet a) = true then (candidates svc).count a
      else 0 := by
    intro a
    rw [extractIPs_eq_filter]
    by_cases h : (a != "" && containsParsed N ipnet a) = true
    · rw [if_pos h]; exact List.count_filter h
    · rw [if_neg h, List.count_eq_zero]
      intro hm
      exact h (List.mem_filter.mp hm).2
  refine ⟨hc, ?_⟩
  rw [List.nodup_iff_count_le_one]
  constructor
  · intro h a hne hin
    have := h a
    rw [hc a, if_pos (by simp [hne, hin])] at this
    exact this
  · intro h a
    rw [hc a]
    by_cases hk : (a != "" && containsParsed N ipnet a) = true
    · rw [if_pos hk]
      simp only [Bool.and_eq_true, bne_iff_ne, ne_eq] at hk
      exact h a hk.1 hk.2
    · rw [if_neg hk]; exact Nat.zero_le _

/-- Witness of C3 (amended) at a service with distinct candidates. -/
theorem C3_extractor_multiplicity_witness :
    (extractIPs ipv4Net (167772160, 4294967040)
      { Namespace := "default", Name := "web", Annotations := [],
        Spec := { Type_ := "LoadBalancer", LoadBalancerIP := "10.0.0.5",
                  ClusterIP := "10.1.0.5", ExternalIPs := ["10.0.0.7"] } }).Nodup :=
  (C3_extractor_multiplicity ipv4Net (167772160, 4294967040) _).2.mpr (by
    intro a _ _
    show List.count a ["10.0.0.5", "10.1.0.5", "10.0.0.7"] ≤ 1
    simp only [List.count_cons, List.count_nil]
    by_cases h1 : a = "10.0.0.5"
    · subst h1; decide
    · by_cases h2 : a = "10.1.0.5"
      · subst h2; decide
      · by_cases h3 : a = "10.0.0.7"
        · subst h3; decide
        · have e1 : ("10.0.0.5" == a) = false := by simpa using fun h => h1 h.symm
          have e2 : ("10.1.0.5" == a) = false := by simpa using fun h => h2 h.symm
          have e3 : ("10.0.0.7" == a) = false := by simpa using fun h => h3 h.symm
          simp [e1, e2, e3])

/-! ## Owner identifier -/

/-- C4. Owner identifier of `AddFunc`: it is the namespace, a slash and the service name when
the service carries no shared-IP annotation, and the namespace, a slash and the annotation
value when it does; two services with the same namespace, name and annotation value have the
same identifier; for default/web2 annotated with shared-lb it is default/shared-lb
and not default/web2. -/
theorem C4_owner_identifier :
    (∀ svc : Service, mapGet svc.Annotations "metallb.universe.tf/allow-shared-ip" = none →
        ownerHostname svc = svc.Namespace ++ "/" ++ svc.Name) ∧
    (∀ (svc : Service) (l : String),
        mapGet svc.Annotations "metallb.universe.tf/allow-shared-ip" = some l →
        ownerHostname svc = svc.Namespace ++ "/" ++ l) ∧
    (∀ svc1 svc2 : Service, svc1.Namespace = svc2.Namespace → svc1.Name = svc2.Name →
        mapGet svc1.Annotations "metallb.universe.tf/allow-shared-ip" =
          mapGet svc2.Annotations "metallb.universe.tf/allow-shared-ip" →
        ownerHostname svc1 = ownerHostname svc2) ∧
    (∀ spec : ServiceSpec,
        ownerHostname
          { Namespace := "default", Name := "web2",
            Annotations := [("metallb.universe.tf/allow-shared-ip", "shared-lb")],
            Spec := spec } = "default/shared-lb" ∧
        ownerHostname
          { Namespace := "default", Name := "web2",
            Annotations := [("metallb.universe.tf/allow-shared-ip", "shared-lb")],
            Spec := spec } ≠ "default/web2") := by
  refine ⟨?_, ?_, ?_, ?_⟩
  · intro svc h; simp [ownerHostname, h]
  · intro svc l h; simp [ownerHostname, h]
  · intro svc1 svc2 h1 h2 h3; simp [ownerHostname, h1, h2, h3]
  · intro spec
    have h : ownerHostname
        { Namespace := "default", Name := "web2",
          Annotations := [("metallb.universe.tf/allow-shared-ip", "shared-lb")],
          Spec := spec } = "default/shared-lb" := by
      simp only [ownerHostname, mapGet, List.lookup]
      decide
    rw [h]
    exact ⟨rfl, by decide⟩

/-! ## Subnet resolution -/

theorem getSubnet_hit {W : Type} (client : Client W) (cidr : String) (st : State W) (x : Subnet)
    (h : mapGet st.subnetCache cidr = some x) : getSubnet client cidr st = (.ok x, st) := by
  unfold getSubnet
  rw [h]

theorem getSubnet_miss_error {W : Type} (client : Client W) (cidr : String) (st : State W)
    (e : String) (h : mapGet st.subnetCache cidr = none)
    (he : (client.GETsubnets ("subnets/cidr/" ++ cidr) st.world).1 = .error e) :
    getSubnet client cidr st =
      (.error e, st.issue (Call.GET ("subnets/cidr/" ++ cidr))
        (client.GETsubnets ("subnets/cidr/" ++ cidr) st.world).2) := by
  unfold getSubnet
  rw [h]
  simp only [he]

theorem getSubnet_miss_count {W : Type} (client : Client W) (cidr : String) (st : State W)
    (subnets : SubnetsResponse) (h : mapGet st.subnetCache cidr = none)
    (he : (client.GETsubnets ("subnets/cidr/" ++ cidr) st.world).1 = .ok subnets)
    (hl : subnets.Data.length ≠ 1) :
    ∃ e, getSubnet client cidr st =
      (.error e, st.issue (Call.GET ("subnets/cidr/" ++ cidr))
        (client.GETsubnets ("subnets/cidr/" ++ cidr) st.world).2) := by
  unfold getSubnet
  rw [h]
  simp only [he]
  by_cases h0 : subnets.Data.length = 0
  · exact ⟨_, by rw [if_pos h0]⟩
  · have h1 : subnets.Data.length > 1 := by omega
    exact ⟨_, by rw [if_neg h0, if_pos h1]⟩

theorem getSubnet_miss_one {W : Type} (client : Client W) (cidr : String) (st : State W)
    (subnets : SubnetsResponse) (d : Subnet) (h : mapGet st.subnetCache cidr = none)
    (he : (client.GETsubnets ("subnets/cidr/" ++ cidr) st.world).1 = .ok subnets)
    (hd : subnets.Data = [d]) :
    getSubnet client cidr st =
      (.ok d, { st.issue (Call.GET ("subnets/cidr/" ++ cidr))
          (client.GETsubnets ("subnets/cidr/" ++ cidr) st.world).2 with
        subnetCache := mapSet st.subnetCache cidr d }) := by
  unfold getSubnet
  rw [h]
  simp only [he, hd]
  simp [State.issue]

/-- Entries of the subnet cache survive a call of `getSubnet` for any CIDR. -/
theorem getSubnet_preserves {W : Type} (client : Client W) (cidr2 : String) (st : State W)
    (cidr : String) (d : Subnet) (h : mapGet st.subnetCache cidr = some d) :
    mapGet (getSubnet client cidr2 st).2.subnetCache cidr = some d := by
  cases hc : mapGet st.subnetCache cidr2 with
  | some x => rw [getSubnet_hit client cidr2 st x hc]; exact h
  | none =>
    cases hr : (client.GETsubnets ("subnets/cidr/" ++ cidr2) st.world).1 with
    | error e => rw [getSubnet_miss_error client cidr2 st e hc hr]; exact h
    | ok subnets =>
      by_cases hl : subnets.Data.length = 1
      · obtain ⟨x, hx⟩ := List.length_eq_one.mp hl
        rw [getSubnet_miss_one client cidr2 st subnets x hc hr hx]
        have hne : cidr ≠ cidr2 := by
          rintro rfl
          rw [hc] at h; cases h
        show mapGet (mapSet st.subnetCache cidr2 x) cidr = some d
        rw [mapGet_mapSet_ne _ _ _ _ hne]; exact h
      · obtain ⟨e, he⟩ := getSubnet_miss_count client cidr2 st subnets hc hr hl
        rw [he]; exact h

theorem createIP_subnetCache {W : Type} (client : Client W) (subnet ip hostname : String)
    (st : State W) : (createIP client subnet ip hostname st).2.subnetCache = st.subnetCache := by
  unfold createIP
  simp only
  split
  · rfl
  · split <;> rfl

theorem setHostname_subnetCache {W : Type} (client : Client W) (id ip hostname : String)
    (st : State W) : (setHostname client id ip hostname st).2.subnetCache = st.subnetCache := by
  unfold setHostname
  simp only
  split
  · rfl
  · split <;> rfl

theorem getIP_subnetCache {W : Type} (client : Client W) (ip : String) (st : State W) :
    (getIP client ip st).2.subnetCache = st.subnetCache := by
  unfold getIP
  simp only
  split
  · rfl
  · split
    · rfl
    · split
      · rfl
      · split
        · rfl
        · split <;> rfl

theorem syncIP_subnetCache {W : Type} (client : Client W) (subnetID ip hostname : String)
    (st st1 : State W) (h : syncIP client subnetID ip hostname st = some st1) :
    st1.subnetCache = st.subnetCache := by
  unfold syncIP at h
  simp only at h
  split at h
  · cases h; rfl
  · split at h
    · cases h; rw [createIP_subnetCache]; rfl
    · split at h
      · cases h; rfl
      · split at h
        · cases h
        · cases h; rw [setHostname_subnetCache]; rfl

theorem syncIPs_subnetCache {W : Type} (client : Client W) (subnetID hostname : String)
    (ips : List String) : ∀ st st1 : State W,
      syncIPs client subnetID hostname ips st = some st1 →
      st1.subnetCache = st.subnetCache := by
  induction ips with
  | nil => intro st st1 h; simp only [syncIPs] at h; cases h; rfl
  | cons ip rest ih =>
    intro st st1 h
    simp only [syncIPs] at h
    cases hs : syncIP client subnetID ip hostname st with
    | none => rw [hs] at h; cases h
    | some st2 =>
      rw [hs] at h
      rw [ih st2 st1 h, syncIP_subnetCache client subnetID ip hostname st st2 hs]

theorem applyRule_preserves {W : Type} (N : NetLib) (client : Client W) (svc : Service)
    (hostname : String) (rule : SubnetRule) (st st1 : State W) (cidr : String) (d : Subnet)
    (h : applyRule N client svc hostname rule st = some st1)
    (hd : mapGet st.subnetCache cidr = some d) : mapGet st1.subnetCache cidr = some d := by
  unfold applyRule at h
  cases hp : N.ParseCIDR rule.CIDR with
  | none => rw [hp] at h; cases h; exact hd
  | some ipnet =>
    rw [hp] at h
    have hg := getSubnet_preserves client rule.CIDR st cidr d hd
    rcases hr : getSubnet client rule.CIDR st with ⟨r, st2⟩
    rw [hr] at h hg
    cases r with
    | error e => cases h; exact hg
    | ok ipamSubnet =>
      simp only at h
      rw [syncIPs_subnetCache client _ _ _ st2 st1 h]
      exact hg

theorem subnetStep_preserves {W : Type} (R : RegexpLib) (N : NetLib) (client : Client W)
    (svc : Service) (hostname : String) (rule : SubnetRule) (st st1 : State W) (cidr : String)
    (d : Subnet) (h : subnetStep R N client svc hostname rule st = some st1)
    (hd : mapGet st.subnetCache cidr = some d) : mapGet st1.subnetCache cidr = some d := by
  by_cases hh : RuleHolds R svc rule
  · rw [subnetStep_of_holds R N client svc hostname rule st hh] at h
    exact applyRule_preserves N client svc hostname rule st st1 cidr d h hd
  · rw [subnetStep_of_not_holds R N client svc hostname rule st hh] at h
    cases h; exact hd

theorem subnetLoop_preserves {W : Type} (R : RegexpLib) (N : NetLib) (client : Client W)
    (svc : Service) (hostname : String) (cidr : String) (d : Subnet)
    (config : List SubnetRule) : ∀ st st1 : State W,
      subnetLoop R N client svc hostname config st = some st1 →
      mapGet st.subnetCache cidr = some d → mapGet st1.subnetCache cidr = some d := by
  induction config with
  | nil => intro st st1 h hd; simp only [subnetLoop] at h; cases h; exact hd
  | cons rule rest ih =>
    intro st st1 h hd
    simp only [subnetLoop] at h
    cases hs : subnetStep R N client svc hostname rule st with
    | none => rw [hs] at h; cases h
    | some st2 =>
      rw [hs] at h
      exact ih st2 st1 h (subnetStep_preserves R N client svc hostname rule st st2 cidr d hs hd)

theorem deleteLoop_subnetCache {W : Type} (client : Client W) (s : String)
    (entries : List (String × String)) : ∀ st : State W,
      (deleteLoop client s entries st).subnetCache = st.subnetCache := by
  induction entries with
  | nil => intro st; rfl
  | cons e rest ih =>
    intro st
    obtain ⟨ip, name⟩ := e
    simp only [deleteLoop]
    split
    · exact ih st
    · have hg := getIP_subnetCache client ip st
      rcases hr : getIP client ip st with ⟨r, st2⟩
      rw [hr] at hg
      cases r with
      | error e => simp only; rw [ih st2]; exact hg
      | ok o =>
        cases o with
        | none => simp only; rw [ih st2]; exact hg
        | some ipamip => simp only [State.issue]; exact hg

theorem runEvents_preserves {W : Type} (R : RegexpLib) (N : NetLib) (client : Client W)
    (config : List SubnetRule) (cidr : String) (d : Subnet) (events : List Event) :
    ∀ st st1 : State W, runEvents R N client config events st = some st1 →
      mapGet st.subnetCache cidr = some d → mapGet st1.subnetCache cidr = some d := by
  induction events with
  | nil => intro st st1 h hd; simp only [runEvents] at h; cases h; exact hd
  | cons e rest ih =>
    intro st st1 h hd
    simp only [runEvents] at h
    cases hs : handleEvent R N client config e st with
    | none => rw [hs] at h; cases h
    | some st2 =>
      rw [hs] at h
      refine ih st2 st1 h ?_
      cases e with
      | added svc =>
        exact subnetLoop_preserves R N client svc _ cidr d config st st2 hs hd
      | deleted s' =>
        simp only [handleEvent, Option.some.injEq] at hs
        rw [← hs, DeleteFunc, deleteLoop_subnetCache]
        exact hd

/-- C5. Subnet resolution `getSubnet`: a CIDR found in the subnet cache is returned with the
state untouched, hence without a registry request; otherwise exactly one request is issued and,
when it fails or reports a number of subnets other than one, the result is an error, the subnet
cache is unchanged, and the next call issues a request again; when it reports exactly one
subnet, that subnet is returned and stored under the CIDR, the next call returns it with the
state untouched, and so does a call after any later sequence of handled events. -/
theorem C5_getSubnet {W : Type} (client : Client W) (cidr : String) (st : State W) :
    (∀ x, mapGet st.subnetCache cidr = some x → getSubnet client cidr st = (.ok x, st)) ∧
    (mapGet st.subnetCache cidr = none →
      (getSubnet client cidr st).2.calls = st.calls ++ [Call.GET ("subnets/cidr/" ++ cidr)] ∧
      (((∃ e, (client.GETsubnets ("subnets/cidr/" ++ cidr) st.world).1 = .error e) ∨
        (∃ subnets, (client.GETsubnets ("subnets/cidr/" ++ cidr) st.world).1 = .ok subnets ∧
          (subnets.Data.length = 0 ∨ subnets.Data.length > 1))) →
        (∃ e, (getSubnet client cidr st).1 = .error e) ∧
        (getSubnet client cidr st).2.subnetCache = st.subnetCache ∧
        (getSubnet client cidr (getSubnet client cidr st).2).2.calls =
          (getSubnet client cidr st).2.calls ++ [Call.GET ("subnets/cidr/" ++ cidr)]) ∧
      (∀ subnets d,
        (client.GETsubnets ("subnets/cidr/" ++ cidr) st.world).1 = .ok subnets →
        subnets.Data = [d] →
        (getSubnet client cidr st).1 = .ok d ∧
        (getSubnet client cidr st).2.subnetCache = mapSet st.subnetCache cidr d ∧
        mapGet (getSubnet client cidr st).2.subnetCache cidr = some d ∧
        getSubnet client cidr (getSubnet client cidr st).2 =
          (.ok d, (getSubnet client cidr st).2) ∧
        ∀ (R : RegexpLib) (N : NetLib) (config : List SubnetRule) (events : List Event)
          (st1 : State W),
          runEvents R N client config events (getSubnet client cidr st).2 = some st1 →
          getSubnet client cidr st1 = (.ok d, st1))) := by
  refine ⟨fun x h => getSubnet_hit client cidr st x h, fun hnone => ?_⟩
  have hcalls : ∀ s : State W, mapGet s.subnetCache cidr = none →
      (getSubnet client cidr s).2.calls = s.calls ++ [Call.GET ("subnets/cidr/" ++ cidr)] := by
    intro s hs
    cases hr : (client.GETsubnets ("subnets/cidr/" ++ cidr) s.world).1 with
    | error e => rw [getSubnet_miss_error client cidr s e hs hr]; rfl
    | ok subnets =>
      by_cases hl : subnets.Data.length = 1
      · obtain ⟨x, hx⟩ := List.length_eq_one.mp hl
        rw [getSubnet_miss_one client cidr s subnets x hs hr hx]; rfl
      · obtain ⟨e, he⟩ := getSubnet_miss_count client cidr s subnets hs hr hl
        rw [he]; rfl
  refine ⟨hcalls st hnone, ?_, ?_⟩
  · intro hfail
    have key : ∃ e, getSubnet client cidr st =
        (.error e, st.issue (Call.GET ("subnets/cidr/" ++ cidr))
          (client.GETsubnets ("subnets/cidr/" ++ cidr) st.world).2) := by
      rcases hfail with ⟨e, he⟩ | ⟨subnets, he, hl⟩
      · exact ⟨e, getSubnet_miss_error client cidr st e hnone he⟩
      · exact getSubnet_miss_count client cidr st subnets hnone he (by omega)
    obtain ⟨e, he⟩ := key
    refine ⟨⟨e, by rw [he]⟩, by rw [he]; rfl, ?_⟩
    apply hcalls
    rw [he]; exact hnone
  · intro subnets d he hd
    have hone := getSubnet_miss_one client cidr st subnets d hnone he hd
    have hget : mapGet (getSubnet client cidr st).2.subnetCache cidr = some d := by
      rw [hone]; exact mapGet_mapSet_self _ _ _
    refine ⟨by rw [hone], by rw [hone], hget, getSubnet_hit client cidr _ d hget, ?_⟩
    intro R N config events st1 hrun
    exact getSubnet_hit client cidr st1 d
      (runEvents_preserves R N client config cidr d events _ st1 hrun hget)

/-- Witness of C5: resolving 10.0.0.0/24 twice in front of a registry that holds it once. -/
theorem C5_getSubnet_witness :
    mapGet (startState [] (registryWith [] false)).subnetCache "10.0.0.0/24" = none ∧
    getSubnet memClient "10.0.0.0/24"
        (getSubnet memClient "10.0.0.0/24" (startState [] (registryWith [] false))).2 =
      (.ok { ID := "7" },
        (getSubnet memClient "10.0.0.0/24" (startState [] (registryWith [] false))).2) :=
  ⟨rfl,
    (((C5_getSubnet memClient "10.0.0.0/24" (startState [] (registryWith [] false))).2
      rfl).2.2 { Code := 200, Message := "", Data := [{ ID := "7" }] } { ID := "7" }
      rfl rfl).2.2.2.1⟩

/-! ## Reservation Synchronizer -/

theorem createIP_accepted {W : Type} (client : Client W) (subnet ip hostname : String)
    (st : State W) (out : IPAddressPatchResponse)
    (h : (client.POST "addresses/" [("ip", ip), ("hostname", hostname), ("subnetId", subnet),
      ("note", "Added by kube-phpipam")] st.world).1 = .ok out)
    (h1 : 200 ≤ out.Code) (h2 : out.Code ≤ 299) :
    (createIP client subnet ip hostname st).2 =
      { st.issue (Call.POST "addresses/" [("ip", ip), ("hostname", hostname),
          ("subnetId", subnet), ("note", "Added by kube-phpipam")])
          (client.POST "addresses/" [("ip", ip), ("hostname", hostname), ("subnetId", subnet),
            ("note", "Added by kube-phpipam")] st.world).2 with
        ipCache := mapSet st.ipCache ip hostname } := by
  unfold createIP
  simp only [h]
  have hc : (decide (out.Code < 200) || decide (out.Code > 299)) = false := by
    simp only [Bool.or_eq_false_iff, decide_eq_false_iff_not]
    omega
  rw [hc]
  simp [State.issue]

theorem setHostname_calls {W : Type} (client : Client W) (id ip hostname : String)
    (st : State W) :
    (setHostname client id ip hostname st).2.calls =
      st.calls ++ [Call.PATCH ("addresses/" ++ id ++ "/")
        [("hostname", hostname), ("note", "Added by kube-phpipam")]] := by
  unfold setHostname
  simp only
  split
  · rfl
  · split <;> rfl

theorem setHostname_accepted {W : Type} (client : Client W) (id ip hostname : String)
    (st : State W) (out : IPAddressPatchResponse)
    (h : (client.PATCH ("addresses/" ++ id ++ "/")
      [("hostname", hostname), ("note", "Added by kube-phpipam")] st.world).1 = .ok out)
    (h1 : 200 ≤ out.Code) (h2 : out.Code ≤ 299) :
    (setHostname client id ip hostname st).2.ipCache = mapSet st.ipCache ip hostname := by
  unfold setHostname
  simp only [h]
  have hc : (decide (out.Code < 200) || decide (out.Code > 299)) = false := by
    simp only [Bool.or_eq_false_iff, decide_eq_false_iff_not]
    omega
  rw [hc]
  simp [State.issue]

theorem setHostname_refused {W : Type} (client : Client W) (id ip hostname : String)
    (st : State W)
    (h : (∃ e, (client.PATCH ("addresses/" ++ id ++ "/")
        [("hostname", hostname), ("note", "Added by kube-phpipam")] st.world).1 = .error e) ∨
      (∃ out, (client.PATCH ("addresses/" ++ id ++ "/")
        [("hostname", hostname), ("note", "Added by kube-phpipam")] st.world).1 = .ok out ∧
        (out.Code < 200 ∨ out.Code > 299))) :
    (setHostname client id ip hostname st).2.ipCache = st.ipCache := by
  unfold setHostname
  rcases h with ⟨e, he⟩ | ⟨out, he, hcode⟩
  · simp only [he]; rfl
  · simp only [he]
    have hc : (decide (out.Code < 200) || decide (out.Code > 299)) = true := by
      simp only [Bool.or_eq_true, decide_eq_true_eq]
      exact hcode
    rw [hc]
    rfl

theorem foundLoop_single (ip hostname : String) (r : IPAddress) :
    foundLoop ip hostname [r] = true ↔ r.IP = ip ∧ r.Hostname = some hostname := by
  unfold foundLoop
  cases hh : r.Hostname with
  | none => simp [foundLoop]
  | some h =>
    by_cases hc : r.IP = ip ∧ h = hostname
    · simp [hc]
    · simp only [hc, if_false, foundLoop]
      simp only [not_and] at hc
      simp only [Bool.false_eq_true, false_iff, not_and, Option.some.injEq]
      exact hc

/-- Two runs of the per-address step `syncIP` when the first lookup answers with a code other
than 200, the answer `AddFunc` takes for an address that is not reserved: if the create is
accepted (no transport error, code in 200..299) and the next lookup answers 200 with exactly
the created record (same address, hostname equal to the owner), the first run issues the lookup
and one create and nothing else, the second run issues the lookup only, neither create nor
update, and after each run the ownership cache maps the address to the owner. -/
theorem syncIP_twice_of_not_found_code {W : Type} (client : Client W) (subnetID ip owner : String)
    (st : State W) (res0 res1 : IPAddressResponse) (out : IPAddressPatchResponse)
    (w1 w2 w3 : W) (r : IPAddress)
    (hget0 : client.GETaddresses ("addresses/search/" ++ ip ++ "/") st.world = (.ok res0, w1))
    (hnone : res0.Code ≠ 200)
    (hpost : client.POST "addresses/" [("ip", ip), ("hostname", owner), ("subnetId", subnetID),
      ("note", "Added by kube-phpipam")] w1 = (.ok out, w2))
    (hacc : 200 ≤ out.Code ∧ out.Code ≤ 299)
    (hget1 : client.GETaddresses ("addresses/search/" ++ ip ++ "/") w2 = (.ok res1, w3))
    (hcode : res1.Code = 200) (hdata : res1.Data = [r])
    (hip : r.IP = ip) (hhost : r.Hostname = some owner) :
    ∃ st1 st2 : State W,
      syncIP client subnetID ip owner st = some st1 ∧
      st1.calls = st.calls ++ [Call.GET ("addresses/search/" ++ ip ++ "/"),
        Call.POST "addresses/" [("ip", ip), ("hostname", owner), ("subnetId", subnetID),
          ("note", "Added by kube-phpipam")]] ∧
      mapGet st1.ipCache ip = some owner ∧
      syncIP client subnetID ip owner st1 = some st2 ∧
      st2.calls = st1.calls ++ [Call.GET ("addresses/search/" ++ ip ++ "/")] ∧
      mapGet st2.ipCache ip = some owner := by
  have hs1 : syncIP client subnetID ip owner st =
      some (createIP client subnetID ip owner
        (st.issue (Call.GET ("addresses/search/" ++ ip ++ "/")) w1)).2 := by
    unfold syncIP
    simp only [hget0]
    rw [if_pos hnone]
  have hp : (client.POST "addresses/" [("ip", ip), ("hostname", owner),
      ("subnetId", subnetID), ("note", "Added by kube-phpipam")]
      (st.issue (Call.GET ("addresses/search/" ++ ip ++ "/")) w1).world).1 = .ok out := by
    show (client.POST _ _ w1).1 = _
    rw [hpost]
  have hc := createIP_accepted client subnetID ip owner
    (st.issue (Call.GET ("addresses/search/" ++ ip ++ "/")) w1) out hp hacc.1 hacc.2
  rw [hc] at hs1
  have hw : (client.POST "addresses/" [("ip", ip), ("hostname", owner),
      ("subnetId", subnetID), ("note", "Added by kube-phpipam")]
      (st.issue (Call.GET ("addresses/search/" ++ ip ++ "/")) w1).world).2 = w2 := by
    show (client.POST _ _ w1).2 = _
    rw [hpost]
  rw [hw] at hs1
  refine ⟨_, { State.issue
      { State.issue (st.issue (Call.GET ("addresses/search/" ++ ip ++ "/")) w1)
          (Call.POST "addresses/" [("ip", ip), ("hostname", owner),
            ("subnetId", subnetID), ("note", "Added by kube-phpipam")]) w2 with
        ipCache := mapSet st.ipCache ip owner }
      (Call.GET ("addresses/search/" ++ ip ++ "/")) w3 with
    ipCache := mapSet (mapSet st.ipCache ip owner) ip owner },
    hs1, ?_, mapGet_mapSet_self _ _ _, ?_, ?_, mapGet_mapSet_self _ _ _⟩
  · simp [State.issue]
  · unfold syncIP
    simp only [State.issue, hget1]
    rw [if_neg (by rw [hcode]; exact fun h => h rfl), hdata,
      if_pos ((foundLoop_single ip owner r).mpr ⟨hip, hhost⟩)]
  · simp [State.issue]

/-- The two runs for address 10.0.0.5 of subnet 7 and owner default/web, in front of a
registry without address records that answers 404 to the first lookup. -/
theorem syncIP_twice_of_not_found_code_example :
    ∃ st1 st2 : State Registry,
      syncIP memClient "7" "10.0.0.5" "default/web" (startState [] (registryWith [] false)) =
        some st1 ∧
      st1.calls = (startState [] (registryWith [] false)).calls ++
        [Call.GET ("addresses/search/" ++ "10.0.0.5" ++ "/"),
          Call.POST "addresses/" [("ip", "10.0.0.5"), ("hostname", "default/web"),
            ("subnetId", "7"), ("note", "Added by kube-phpipam")]] ∧
      mapGet st1.ipCache "10.0.0.5" = some "default/web" ∧
      syncIP memClient "7" "10.0.0.5" "default/web" st1 = some st2 ∧
      st2.calls = st1.calls ++ [Call.GET ("addresses/search/" ++ "10.0.0.5" ++ "/")] ∧
      mapGet st2.ipCache "10.0.0.5" = some "default/web" :=
  syncIP_twice_of_not_found_code memClient "7" "10.0.0.5" "default/web"
    (startState [] (registryWith [] false))
    { Code := 404, Message := "Address not found", Data := [] }
    { Code := 200, Message := "", Data := [createdRecord] }
    { Code := 201, Message := "Address created" }
    (registryWith [] false) (registryWith [createdRecord] false)
    (registryWith [createdRecord] false) createdRecord
    rfl (by decide) rfl ⟨by decide, by decide⟩ rfl rfl rfl rfl rfl

/-- C7. Ownership exclusivity of the per-address step `syncIP`: when the lookup answers 200 with
exactly one record whose hostname is not the owner (a record without hostname included), the
step issues, after the lookup, exactly one request, the update of that record's identifier with
the owner as hostname, and no create; when the update is accepted (no transport error, code in
200..299) the ownership cache maps the address to the owner, and when it is not the ownership
cache is unchanged. -/
theorem C7_sync_takeover {W : Type} (client : Client W) (subnetID ip owner : String)
    (st : State W) (res : IPAddressResponse) (w1 : W) (r : IPAddress)
    (hget : client.GETaddresses ("addresses/search/" ++ ip ++ "/") st.world = (.ok res, w1))
    (hcode : res.Code = 200) (hdata : res.Data = [r]) (hhost : r.Hostname ≠ some owner) :
    ∃ st1 : State W,
      syncIP client subnetID ip owner st = some st1 ∧
      st1.calls = st.calls ++ [Call.GET ("addresses/search/" ++ ip ++ "/"),
        Call.PATCH ("addresses/" ++ r.ID ++ "/")
          [("hostname", owner), ("note", "Added by kube-phpipam")]] ∧
      ((∃ out, (client.PATCH ("addresses/" ++ r.ID ++ "/")
          [("hostname", owner), ("note", "Added by kube-phpipam")] w1).1 = .ok out ∧
          200 ≤ out.Code ∧ out.Code ≤ 299) →
        mapGet st1.ipCache ip = some owner) ∧
      (((∃ e, (client.PATCH ("addresses/" ++ r.ID ++ "/")
          [("hostname", owner), ("note", "Added by kube-phpipam")] w1).1 = .error e) ∨
        (∃ out, (client.PATCH ("addresses/" ++ r.ID ++ "/")
          [("hostname", owner), ("note", "Added by kube-phpipam")] w1).1 = .ok out ∧
          (out.Code < 200 ∨ out.Code > 299))) →
        st1.ipCache = st.ipCache) := by
  have hf : foundLoop ip owner [r] = false := by
    rw [Bool.eq_false_iff]
    intro h
    exact hhost ((foundLoop_single ip owner r).mp h).2
  have hs : syncIP client subnetID ip owner st =
      some (setHostname client r.ID ip owner
        (st.issue (Call.GET ("addresses/search/" ++ ip ++ "/")) w1)).2 := by
    unfold syncIP
    simp only [hget]
    rw [if_neg (by rw [hcode]; exact fun h => h rfl), hdata, hf]
    simp
  refine ⟨_, hs, ?_, ?_, ?_⟩
  · rw [setHostname_calls]
    simp [State.issue]
  · rintro ⟨out, ho, h1, h2⟩
    rw [setHostname_accepted client r.ID ip owner _ out ho h1 h2]
    exact mapGet_mapSet_self _ _ _
  · intro h
    rw [setHostname_refused client r.ID ip owner _ h]
    rfl

/-- Witness of C7: address 10.0.0.5 is reserved for default/old and is synchronised
for default/web. -/
theorem C7_sync_takeover_witness :
    ∃ st1 : State Registry,
      syncIP memClient "7" "10.0.0.5" "default/web"
        (startState [] (registryWith [oldRecord] false)) = some st1 ∧
      st1.calls = (startState [] (registryWith [oldRecord] false)).calls ++
        [Call.GET ("addresses/search/" ++ "10.0.0.5" ++ "/"),
          Call.PATCH ("addresses/" ++ oldRecord.ID ++ "/")
            [("hostname", "default/web"), ("note", "Added by kube-phpipam")]] ∧
      mapGet st1.ipCache "10.0.0.5" = some "default/web" := by
  obtain ⟨st1, h1, h2, h3, _⟩ := C7_sync_takeover memClient "7" "10.0.0.5" "default/web"
    (startState [] (registryWith [oldRecord] false))
    { Code := 200, Message := "", Data := [oldRecord] }
    (registryWith [oldRecord] false) oldRecord rfl rfl rfl (by decide)
  exact ⟨st1, h1, h2, h3 ⟨{ Code := 200, Message := "Address updated" }, rfl,
    by decide, by decide⟩⟩

/-- C8, the code at a failing input. The registry holds two reservations of 10.0.0.5,
for default/old and for default/other; the lookup answers 200 with both, and the step
for owner default/web issues an update of the first record and maps the address to
that owner in the ownership cache. -/
theorem C8_duplicates_patched :
    (memClient.GETaddresses "addresses/search/10.0.0.5/"
        (registryWith [oldRecord, otherRecord] false)).1 =
      .ok { Code := 200, Message := "", Data := [oldRecord, otherRecord] } ∧
    (syncIP memClient "7" "10.0.0.5" "default/web"
        (startState [] (registryWith [oldRecord, otherRecord] false))).map
        (fun s => (s.calls, s.ipCache)) =
      some ([Call.GET "addresses/search/10.0.0.5/",
          Call.PATCH "addresses/1/"
            [("hostname", "default/web"), ("note", "Added by kube-phpipam")]],
        [("10.0.0.5", "default/web")]) := by
  constructor
  · rfl
  · decide

/-! ## Deletion Reconciler -/

/-- C9, the code at a failing input. The ownership cache maps 10.0.0.5 and 10.0.0.6 to the
owner default/web, the registry holds one reservation for each and accepts deletions; `DeleteFunc`
for default/web looks up and deletes the first address only and leaves the second one in the
cache and in the registry. -/
theorem C9_delete_stops_after_first :
    (DeleteFunc memClient "default/web"
        (startState [("10.0.0.5", "default/web"), ("10.0.0.6", "default/web")]
          (registryWith [webRecord5, webRecord6] false))).calls =
      [Call.GET "addresses/search/10.0.0.5/", Call.DELETE "addresses/1/"] ∧
    (DeleteFunc memClient "default/web"
        (startState [("10.0.0.5", "default/web"), ("10.0.0.6", "default/web")]
          (registryWith [webRecord5, webRecord6] false))).ipCache =
      [("10.0.0.6", "default/web")] ∧
    (DeleteFunc memClient "default/web"
        (startState [("10.0.0.5", "default/web"), ("10.0.0.6", "default/web")]
          (registryWith [webRecord5, webRecord6] false))).world.addresses =
      [webRecord6] := by
  refine ⟨?_, ?_, ?_⟩ <;> decide

/-- C10, the code at a failing input. The ownership cache maps 10.0.0.5 to default/web, the
registry holds the reservation and answers 500 to the deletion; `DeleteFunc` for default/web
issues the delete, the reservation stays in the registry, and the cache entry is dropped. -/
theorem C10_failed_delete_drops_entry :
    (memClient.DELETE "addresses/1/" (registryWith [webRecord5] true)).1 =
      (none, { Code := 500, Message := "Address cannot be deleted" }) ∧
    (DeleteFunc memClient "default/web"
        (startState [("10.0.0.5", "default/web")] (registryWith [webRecord5] true))).calls =
      [Call.GET "addresses/search/10.0.0.5/", Call.DELETE "addresses/1/"] ∧
    (DeleteFunc memClient "default/web"
        (startState [("10.0.0.5", "default/web")]
          (registryWith [webRecord5] true))).world.addresses = [webRecord5] ∧
    mapGet (DeleteFunc memClient "default/web"
        (startState [("10.0.0.5", "default/web")] (registryWith [webRecord5] true))).ipCache
      "10.0.0.5" = none := by
  refine ⟨?_, ?_, ?_, ?_⟩ <;> decide

/-- C6, the code at a failing input. The registry holds a reservation of 10.0.0.6 and none of
10.0.0.5, accepts the create of 10.0.0.5 with code 201 and then answers the lookup with exactly
the created record; its lookup of the unreserved address answers 200 with an empty record list.
The first run of the step for 10.0.0.5 and owner default/web panics on `res.Data[0]`: no state
results, so no create is issued and the ownership cache is never set, and the two runs in
succession panic as well. -/
theorem C6_first_run_panics :
    (registryWith [webRecord6] false).addresses.filter (fun a => a.IP = "10.0.0.5") = [] ∧
    memClient200.POST "addresses/" [("ip", "10.0.0.5"), ("hostname", "default/web"),
        ("subnetId", "7"), ("note", "Added by kube-phpipam")] (registryWith [webRecord6] false) =
      (.ok { Code := 201, Message := "Address created" },
        registryWith [webRecord6, createdRecord] false) ∧
    (memClient200.GETaddresses "addresses/search/10.0.0.5/"
        (registryWith [webRecord6, createdRecord] false)).1 =
      .ok { Code := 200, Message := "", Data := [createdRecord] } ∧
    (memClient200.GETaddresses "addresses/search/10.0.0.5/"
        (registryWith [webRecord6] false)).1 =
      .ok { Code := 200, Message := "", Data := [] } ∧
    syncIP memClient200 "7" "10.0.0.5" "default/web"
      (startState [] (registryWith [webRecord6] false)) = none ∧
    (syncIP memClient200 "7" "10.0.0.5" "default/web"
      (startState [] (registryWith [webRecord6] false))).bind
      (syncIP memClient200 "7" "10.0.0.5" "default/web") = none := by
  refine ⟨by decide, rfl, rfl, rfl, by decide, by decide⟩

/-! ## Index safety of the per-address step -/

/-- C11, the code at a failing input. In front of a server that answers the search for an
unreserved address with code 200 and an empty record list, the step for 10.0.0.5 reads
`res.Data[0]` of the empty list and panics, so the loop over the candidates 10.0.0.5 and
10.0.0.6 does not reach the second one, while `getIP` returns no record for the same response;
for every client, the step panics exactly when the lookup decodes a response with code 200 and
an empty record list. -/
theorem C11_empty_result_panics :
    (memClient200.GETaddresses "addresses/search/10.0.0.5/" (registryWith [] false)).1 =
      .ok { Code := 200, Message := "", Data := [] } ∧
    syncIP memClient200 "7" "10.0.0.5" "default/web" (startState [] (registryWith [] false)) =
      none ∧
    syncIPs memClient200 "7" "default/web" ["10.0.0.5", "10.0.0.6"]
      (startState [] (registryWith [] false)) = none ∧
    (getIP memClient200 "10.0.0.5" (startState [] (registryWith [] false))).1 = .ok none ∧
    (∀ (W : Type) (client : Client W) (subnetID ip hostname : String) (st : State W),
      syncIP client subnetID ip hostname st = none ↔
        ∃ res, (client.GETaddresses ("addresses/search/" ++ ip ++ "/") st.world).1 = .ok res ∧
          res.Code = 200 ∧ res.Data = []) := by
  refine ⟨rfl, by decide, by decide, rfl, ?_⟩
  intro W client subnetID ip hostname st
  unfold syncIP
  cases hr : (client.GETaddresses ("addresses/search/" ++ ip ++ "/") st.world).1 with
  | error e => simp [hr]
  | ok res =>
    by_cases hc : res.Code = 200
    · cases hd : res.Data with
      | nil => simp [hr, hc, hd, foundLoop]
      | cons d rest =>
        by_cases hf : foundLoop ip hostname (d :: rest) = true
        · simp [hr, hc, hd, hf]
        · simp [hr, hc, hd, hf]
    · simp [hr, hc]

end KubePhpipam
